import Mathlib

/-!
Verification of the BeneAI time-series aggregation pipeline.

Shallow embedding of the core components from `src/backend/app`:
`speech_mapper.py` (SpeechMapper), `interval_aggregator.py`
(IntervalAggregator), `timeseries_buffer.py` (TimeSeriesBuffer) and the
category mapper in `hume_client.py` (`_map_to_investor_state`,
`_get_primary_emotion_for_state`).

Timestamps and scores are modelled as rationals (the Python code uses
floats; the spec's thresholds 0.05, 0.8, 0.10, 5.0 are exact here).
Python code that can raise (`max()` over an empty sequence) is modelled
with `Option`.
-/

namespace BeneAI

/-- A transcribed word as stored in `SpeechMapper.pending_words`
(`speech_mapper.py`, `add_word`). -/
structure Word where
  word : String
  timestamp : ℚ
  confidence : ℚ
deriving DecidableEq, Repr

/-- State of `SpeechMapper` (`speech_mapper.py`, `__init__`). -/
structure SpeechMapper where
  silence_threshold : ℚ
  pending_words : List Word
  last_word_time : Option ℚ
  total_words_mapped : ℕ
  total_silence_detected : ℕ
deriving DecidableEq, Repr

/-- `SpeechMapper.__init__` with its default `silence_threshold=0.5`. -/
def initSpeechMapper (silence_threshold : ℚ := 1/2) : SpeechMapper :=
  { silence_threshold := silence_threshold
    pending_words := []
    last_word_time := none
    total_words_mapped := 0
    total_silence_detected := 0 }

/-- `SpeechMapper.add_word`: append to the pending queue and record the
last word time. -/
def addWord (m : SpeechMapper) (word : String) (timestamp : ℚ)
    (confidence : ℚ := 1) : SpeechMapper :=
  { m with
    pending_words := m.pending_words ++ [⟨word, timestamp, confidence⟩]
    last_word_time := some timestamp }

/-- The hard-coded `LOOKBACK_BUFFER = 5.0` in
`SpeechMapper.map_to_interval`. -/
def LOOKBACK_BUFFER : ℚ := 5

/-- The lookback-window test of `map_to_interval`:
`(interval_start - LOOKBACK_BUFFER) <= word_timestamp < interval_end`. -/
def inLookbackWindow (interval_start interval_end : ℚ) (w : Word) : Bool :=
  decide (interval_start - LOOKBACK_BUFFER ≤ w.timestamp ∧
    w.timestamp < interval_end)

/-- The keep-for-future test of `map_to_interval`:
`word_timestamp >= interval_end`. -/
def isAfterEnd (interval_end : ℚ) (w : Word) : Bool :=
  decide (interval_end ≤ w.timestamp)

/-- The word-partition loop of `SpeechMapper.map_to_interval`: each
pending word goes to exactly one of (included, remaining, discarded),
following the `if / elif / else` chain of the source. -/
def splitWords (interval_start interval_end : ℚ) :
    List Word → List Word × List Word × List Word
  | [] => ([], [], [])
  | w :: ws =>
    let rest := splitWords interval_start interval_end ws
    if inLookbackWindow interval_start interval_end w then
      (w :: rest.1, rest.2.1, rest.2.2)
    else if isAfterEnd interval_end w then
      (rest.1, w :: rest.2.1, rest.2.2)
    else
      (rest.1, rest.2.1, w :: rest.2.2)

/-- Silence-gap scan: true when two consecutive words (already in the
order being scanned) are at least `th` apart. -/
def hasGapGE (th : ℚ) : List Word → Bool
  | a :: b :: rest =>
    (decide (th ≤ b.timestamp - a.timestamp)) || hasGapGE th (b :: rest)
  | _ => false

/-- Stable insertion (ascending by `key`); equal keys keep their original
relative order, matching Python's stable `sorted`. -/
def insertAscBy (key : Word → ℚ) (x : Word) : List Word → List Word
  | [] => [x]
  | y :: ys =>
    if key x < key y then x :: y :: ys else y :: insertAscBy key x ys

/-- Stable ascending sort, matching `sorted(words, key=timestamp)`. -/
def sortAscBy (key : Word → ℚ) (l : List Word) : List Word :=
  l.foldr (insertAscBy key) []

/-- `SpeechMapper._is_silence_interval`: no words means silence; with at
least two words, a gap ≥ `silence_threshold` between consecutive
timestamp-sorted words means silence. -/
def isSilenceInterval (m : SpeechMapper) (_interval_start _interval_end : ℚ)
    (interval_words : List Word) : Bool :=
  if interval_words.isEmpty then true
  else if 1 < interval_words.length then
    hasGapGE m.silence_threshold (sortAscBy (·.timestamp) interval_words)
  else false

/-- Result of `SpeechMapper.map_to_interval` together with the updated
mapper state. -/
structure MapResult where
  words : List Word
  full_text : String
  is_silence : Bool
  mapper : SpeechMapper
deriving DecidableEq, Repr

/-- `SpeechMapper.map_to_interval`: partition pending words, keep the
future ones pending, join the included words' text in queue order, and
detect silence. -/
def mapToInterval (m : SpeechMapper) (interval_start interval_end : ℚ) :
    MapResult :=
  let parts := splitWords interval_start interval_end m.pending_words
  let interval_words := parts.1
  let remaining_words := parts.2.1
  let full_text := String.intercalate " " (interval_words.map (·.word))
  let is_silence := isSilenceInterval m interval_start interval_end
    interval_words
  { words := interval_words
    full_text := full_text
    is_silence := is_silence
    mapper :=
      { m with
        pending_words := remaining_words
        total_words_mapped := m.total_words_mapped + interval_words.length
        total_silence_detected :=
          m.total_silence_detected + (if is_silence then 1 else 0) } }

/-- The words dropped by `map_to_interval`'s `else` branch (the source
only logs them; we name them to state the partition invariant). -/
def discardedWords (m : SpeechMapper) (interval_start interval_end : ℚ) :
    List Word :=
  (splitWords interval_start interval_end m.pending_words).2.2

/-! ## Interval Aggregator (`interval_aggregator.py`) -/

/-- The `emotion_data` dict passed to `IntervalAggregator.add_frame`
(keys `all_emotions`, `investor_state`, `confidence`). -/
structure EmotionData where
  all_emotions : List (String × ℚ)
  investor_state : Option String
  confidence : ℚ
deriving DecidableEq, Repr

/-- A frame record appended in `add_frame`. -/
structure Frame where
  timestamp : ℚ
  emotions : List (String × ℚ)
  state : Option String
  face_detected : Bool
  confidence : ℚ
deriving DecidableEq, Repr

/-- One entry of an interval's `top_emotions` list
(`_get_top_emotions_with_trends`). -/
structure TopEmotion where
  name : String
  avg_score : ℚ
  trend : String
deriving DecidableEq, Repr

/-- The `flags` dict produced by `_generate_flags`. -/
structure Flags where
  high_confidence : Bool
  emotion_shift : Bool
  state_transition : Bool
  silence : Bool
deriving DecidableEq, Repr

/-- The interval dictionary returned by `IntervalAggregator.get_interval`
(speech fields start empty, later filled by the SpeechMapper). -/
structure IntervalData where
  timestamp : ℚ
  interval_start : ℚ
  interval_end : ℚ
  top_emotions : List TopEmotion
  investor_state : String
  frames_count : ℕ
  faces_detected : ℕ
  flags : Flags
  words : List Word
  full_text : String
deriving DecidableEq, Repr

/-- State of `IntervalAggregator` (`__init__`). -/
structure AggState where
  interval_duration : ℚ
  current_interval_start : Option ℚ
  current_interval_frames : List Frame
  current_interval_states : List String
  previous_top_emotions : Option (List TopEmotion)
  previous_state : Option String
  interval_count : ℕ
deriving DecidableEq, Repr

/-- `IntervalAggregator.__init__` with default `interval_duration=1.0`. -/
def initAggState (interval_duration : ℚ := 1) : AggState :=
  { interval_duration := interval_duration
    current_interval_start := none
    current_interval_frames := []
    current_interval_states := []
    previous_top_emotions := none
    previous_state := none
    interval_count := 0 }

/-- `IntervalAggregator.add_frame`: start the window clock on the first
frame, append the frame, and track the state when it is truthy (Python
`if emotion_data.get("investor_state"):` is false for `None` and `""`). -/
def addFrame (s : AggState) (emotion_data : EmotionData) (timestamp : ℚ)
    (face_detected : Bool := true) : AggState :=
  { s with
    current_interval_start := some (s.current_interval_start.getD timestamp)
    current_interval_frames := s.current_interval_frames ++
      [{ timestamp := timestamp
         emotions := emotion_data.all_emotions
         state := emotion_data.investor_state
         face_detected := face_detected
         confidence := emotion_data.confidence }]
    current_interval_states := s.current_interval_states ++
      (match emotion_data.investor_state with
       | some st => if st.isEmpty then [] else [st]
       | none => []) }

/-- `IntervalAggregator.interval_complete`: true iff a window is open and
`current_time - window_start >= interval_duration`. -/
def intervalComplete (s : AggState) (current_time : ℚ) : Bool :=
  match s.current_interval_start with
  | none => false
  | some start => decide (s.interval_duration ≤ current_time - start)

/-- Accumulate one emotion observation into the running
(sum, count) association list, preserving first-occurrence key order as
Python's insertion-ordered `defaultdict`s do. -/
def bump : List (String × ℚ × ℕ) → String → ℚ → List (String × ℚ × ℕ)
  | [], k, v => [(k, v, 1)]
  | (k', sm, c) :: rest, k, v =>
    if k' = k then (k', sm + v, c + 1) :: rest
    else (k', sm, c) :: bump rest k v

/-- The sum/count accumulation loop of `get_interval`: frames without a
detected face are skipped. -/
def collectSums (frames : List Frame) : List (String × ℚ × ℕ) :=
  frames.foldl
    (fun acc f =>
      if f.face_detected then
        f.emotions.foldl (fun a kv => bump a kv.1 kv.2) acc
      else acc)
    []

/-- Per-category simple averages in first-occurrence order
(`emotion_averages` in `get_interval`; every recorded count is ≥ 1). -/
def emotionAverages (frames : List Frame) : List (String × ℚ) :=
  (collectSums frames).map (fun x => (x.1, x.2.1 / (x.2.2 : ℚ)))

/-- Stable descending insertion by the score component (matches Python's
stable `sorted(..., reverse=True)`: equal scores keep original order). -/
def insertDescBy (x : String × ℚ) :
    List (String × ℚ) → List (String × ℚ)
  | [] => [x]
  | y :: ys => if y.2 < x.2 then x :: y :: ys else y :: insertDescBy x ys

/-- Stable descending sort by score. -/
def sortDescBySnd (l : List (String × ℚ)) : List (String × ℚ) :=
  l.foldr insertDescBy []

/-- Python's `round(x, 3)` (round-half-to-even at 3 decimals), on ℚ. -/
def round3 (q : ℚ) : ℚ :=
  let x := q * 1000
  let r : ℤ :=
    if Int.fract x = 1/2 then
      (if ⌊x⌋ % 2 = 0 then ⌊x⌋ else ⌊x⌋ + 1)
    else round x
  (r : ℚ) / 1000

/-- `IntervalAggregator._calculate_trend`: compare the current average to
the same-named entry of the previous interval's top list, with the ±0.05
threshold; `"new"` when absent, `"stable"` when there is no previous
interval. -/
def calculateTrend (s : AggState) (emotion_name : String)
    (current_score : ℚ) : String :=
  match s.previous_top_emotions with
  | none => "stable"
  | some prevs =>
    match prevs.find? (fun e => e.name == emotion_name) with
    | none => "new"
    | some pe =>
      let diff := current_score - pe.avg_score
      if 1/20 < diff then "increasing"
      else if diff < -(1/20) then "decreasing"
      else "stable"

/-- `IntervalAggregator._get_top_emotions_with_trends`: top `n` by
average score, each with a rounded score and a trend tag. -/
def topEmotionsWithTrends (s : AggState)
    (current_averages : List (String × ℚ)) (n : ℕ := 3) :
    List TopEmotion :=
  ((sortDescBySnd current_averages).take n).map
    (fun p => { name := p.1, avg_score := round3 p.2,
                trend := calculateTrend s p.1 p.2 })

/-- First-maximum selection, matching Python's `max(items, key=...)`
which keeps the earlier element on ties; `none` models the `ValueError`
Python raises on an empty sequence. -/
def maxBySnd {β : Type} [LT β] [DecidableRel (α := β) (· < ·)] :
    List (String × β) → Option (String × β)
  | [] => none
  | x :: xs => some (xs.foldl (fun cur y => if cur.2 < y.2 then y else cur) x)

/-- Increment a state's tally, appending on first occurrence
(insertion-ordered `defaultdict(int)`). -/
def bumpCount : List (String × ℕ) → String → List (String × ℕ)
  | [], k => [(k, 1)]
  | (k', c) :: rest, k =>
    if k' = k then (k', c + 1) :: rest else (k', c) :: bumpCount rest k

/-- Occurrence counts in first-seen order (`state_counts` in
`_get_dominant_state`). -/
def countsOf (states : List String) : List (String × ℕ) :=
  states.foldl bumpCount []

/-- `IntervalAggregator._get_dominant_state`: most common state of the
window, ties resolved in favour of the first-seen state (Python `max`
over an insertion-ordered dict); `"neutral"` when no states were
recorded. -/
def dominantState (states : List String) : String :=
  if states.isEmpty then "neutral"
  else ((maxBySnd (countsOf states)).map Prod.fst).getD "neutral"

/-- `IntervalAggregator._check_high_confidence`: at least 80% of the
window's frames had a detected face. -/
def checkHighConfidence (s : AggState) : Bool :=
  if s.current_interval_frames.isEmpty then false
  else
    decide ((4 : ℚ)/5 ≤
      ((s.current_interval_frames.filter (·.face_detected)).length : ℚ) /
        (s.current_interval_frames.length : ℚ))

/-- `IntervalAggregator._check_emotion_shift`: the source returns
`False` on every path (`return False  # Will be updated based on
trends`), so the flag is a placeholder. -/
def checkEmotionShift (s : AggState) : Bool :=
  match s.previous_top_emotions with
  | none => false
  | some prevs => if prevs.length < 3 then false else false

/-- `IntervalAggregator._check_state_transition`: true iff a previous
interval exists and its dominant state differs from the current one. -/
def checkStateTransition (s : AggState) (current_state : String) : Bool :=
  match s.previous_state with
  | none => false
  | some prev => decide (current_state ≠ prev)

/-- `IntervalAggregator._generate_flags`. -/
def generateFlags (s : AggState) (current_state : String) : Flags :=
  { high_confidence := checkHighConfidence s
    emotion_shift := checkEmotionShift s
    state_transition := checkStateTransition s current_state
    silence := false }

/-- `IntervalAggregator.get_interval`: `none` and unchanged state when no
frames accumulated; otherwise build the interval dictionary, record the
comparison data for the next window, and reset the accumulators. -/
def getInterval (s : AggState) (current_time : ℚ) :
    Option IntervalData × AggState :=
  if s.current_interval_frames.isEmpty then (none, s)
  else
    let start := s.current_interval_start.getD 0
    let averages := emotionAverages s.current_interval_frames
    let top_emotions := topEmotionsWithTrends s averages 3
    let investor_state := dominantState s.current_interval_states
    let flags := generateFlags s investor_state
    let d : IntervalData :=
      { timestamp := start + s.interval_duration / 2
        interval_start := start
        interval_end := current_time
        top_emotions := top_emotions
        investor_state := investor_state
        frames_count := s.current_interval_frames.length
        faces_detected :=
          (s.current_interval_frames.filter (·.face_detected)).length
        flags := flags
        words := []
        full_text := "" }
    (some d,
     { s with
       previous_top_emotions := some top_emotions
       previous_state := some investor_state
       current_interval_start := none
       current_interval_frames := []
       current_interval_states := []
       interval_count := s.interval_count + 1 })

/-! ## Time-Series Buffer (`timeseries_buffer.py`) -/

/-- State of `TimeSeriesBuffer` (`__init__`); the deque is modelled by a
list holding at most `window_size` newest intervals. -/
structure TSBuffer where
  window_size : ℕ
  update_interval : ℚ
  intervals : List IntervalData
  last_llm_update : Option ℚ
  session_start : Option ℚ
  total_intervals : ℕ
  llm_updates_sent : ℕ
deriving DecidableEq, Repr

/-- `TimeSeriesBuffer.__init__` with its defaults `window_size=5`,
`update_interval=5.0`. -/
def initTSBuffer (window_size : ℕ := 5) (update_interval : ℚ := 5) :
    TSBuffer :=
  { window_size := window_size
    update_interval := update_interval
    intervals := []
    last_llm_update := none
    session_start := none
    total_intervals := 0
    llm_updates_sent := 0 }

/-- `deque(maxlen=cap).append`: drop from the front when past capacity. -/
def appendEvict (l : List IntervalData) (d : IntervalData) (cap : ℕ) :
    List IntervalData :=
  let grown := l ++ [d]
  if grown.length ≤ cap then grown else grown.drop (grown.length - cap)

/-- Python `list(intervals)[-2:]`: the two newest buffered intervals. -/
def lastTwo (l : List IntervalData) : List IntervalData :=
  l.drop (l.length - 2)

/-- `TimeSeriesBuffer._has_significant_shift`: any of the two newest
intervals carries `emotion_shift`. -/
def hasSignificantShift (b : TSBuffer) : Bool :=
  if b.intervals.length < 2 then false
  else (lastTwo b.intervals).any (·.flags.emotion_shift)

/-- `TimeSeriesBuffer._has_state_transition`: any of the two newest
intervals carries `state_transition`. -/
def hasStateTransition (b : TSBuffer) : Bool :=
  if b.intervals.length < 2 then false
  else (lastTwo b.intervals).any (·.flags.state_transition)

/-- `TimeSeriesBuffer._should_trigger_llm_update`, run after the append;
returns the decision together with the updated `last_llm_update`. -/
def shouldTriggerLLMUpdate (b : TSBuffer) (current_time : ℚ) :
    Bool × Option ℚ :=
  if b.intervals.length < b.window_size then (false, b.last_llm_update)
  else
    match b.last_llm_update with
    | none => (true, some current_time)
    | some last =>
      if b.update_interval ≤ current_time - last then
        (true, some current_time)
      else if hasSignificantShift b then (true, some current_time)
      else if hasStateTransition b then (true, some current_time)
      else (false, some last)

/-- `TimeSeriesBuffer.add_interval`: set the session start on first use,
append (evicting the oldest at capacity), bump the counter, and decide
whether to trigger an LLM update. -/
def addInterval (b : TSBuffer) (interval_data : IntervalData)
    (current_time : ℚ) : Bool × TSBuffer :=
  let b1 : TSBuffer :=
    { b with
      session_start := some (b.session_start.getD current_time)
      intervals := appendEvict b.intervals interval_data b.window_size
      total_intervals := b.total_intervals + 1 }
  let res := shouldTriggerLLMUpdate b1 current_time
  (res.1, { b1 with last_llm_update := res.2 })

/-! ## Category mapper (`hume_client.py`) -/

/-- The `state_emotions` table of
`HumeClient._get_primary_emotion_for_state`: the fine-grained emotion
keys belonging to each engagement state (empty for `"neutral"` and for
unknown states, matching `dict.get(state, [])`). -/
def stateEmotions (state : String) : List String :=
  if state = "closed-off" then
    ["Anger", "Fear", "Anxiety (negative)", "Distress", "Contempt",
     "Disgust", "Boredom", "Awkwardness", "Disapproval", "Sadness",
     "Doubt", "Pain"]
  else if state = "baseline" then
    ["Calmness", "Aesthetic Appreciation", "Contemplation"]
  else if state = "curious" then
    ["Interest", "Curiosity", "Concentration", "Realization",
     "Surprise (positive)"]
  else if state = "amused" then
    ["Amusement", "Joy", "Satisfaction", "Entrancement"]
  else if state = "enthusiastic" then
    ["Joy", "Excitement", "Admiration", "Triumph", "Ecstasy",
     "Surprise (positive)"]
  else if state = "thinking" then
    ["Contemplation", "Concentration", "Confusion", "Realization"]
  else []

/-- `emotions.get(name, 0)` over the score map. -/
def scoreOf (emotions : List (String × ℚ)) (name : String) : ℚ :=
  (emotions.lookup name).getD 0

/-- The six weighted category sums of
`HumeClient._map_to_investor_state`, in source order. -/
def investorStateScores (emotions : List (String × ℚ)) :
    List (String × ℚ) :=
  let g := scoreOf emotions
  [("closed-off",
      g "Anger" * (7/10) + g "Fear" * (6/10) +
      g "Anxiety (negative)" * (6/10) + g "Distress" * (5/10) +
      g "Contempt" * (5/10) + g "Disgust" * (4/10) +
      g "Boredom" * (6/10) + g "Awkwardness" * (7/10) +
      g "Disapproval" * (3/10) + g "Sadness" * (3/10) +
      g "Doubt" * (3/10) + g "Pain" * (2/10)),
   ("baseline",
      g "Calmness" * (8/10) + g "Aesthetic Appreciation" * (3/10) +
      g "Contemplation" * (2/10)),
   ("curious",
      g "Interest" * (9/10) + g "Curiosity" * (9/10) +
      g "Concentration" * (5/10) + g "Realization" * (5/10) +
      g "Surprise (positive)" * (4/10)),
   ("amused",
      g "Amusement" * (9/10) + g "Joy" * (5/10) +
      g "Satisfaction" * (6/10) + g "Entrancement" * (4/10)),
   ("enthusiastic",
      g "Joy" * (9/10) + g "Excitement" * (9/10) +
      g "Admiration" * (7/10) + g "Triumph" * (5/10) +
      g "Ecstasy" * (6/10) + g "Surprise (positive)" * (5/10)),
   ("thinking",
      g "Contemplation" * (8/10) + g "Concentration" * (7/10) +
      g "Confusion" * (4/10) + g "Realization" * (3/10))]

/-- `HumeClient._map_to_investor_state`: the highest-scoring category
wins, but only above the 0.10 confidence floor; otherwise `"baseline"`. -/
def mapToInvestorState (emotions : List (String × ℚ)) : String :=
  match maxBySnd (investorStateScores emotions) with
  | none => "baseline"
  | some dominant =>
    if 1/10 < dominant.2 then dominant.1 else "baseline"

/-- `HumeClient._get_primary_emotion_for_state`: the best-scoring
emotion restricted to the state's key subset, falling back to the global
arg-max when the subset is empty or none of its keys are present;
`none` models the `ValueError` Python's `max` raises on an empty map. -/
def getPrimaryEmotionForState (emotions : List (String × ℚ))
    (state : String) : Option (String × ℚ) :=
  let relevant := stateEmotions state
  if relevant.isEmpty then maxBySnd emotions
  else
    let filtered := emotions.filter (fun p => relevant.contains p.1)
    if filtered.isEmpty then maxBySnd emotions
    else maxBySnd filtered

/-! ## Lemmas about the speech-mapper word partition -/

/-- The included group is exactly the pending words inside the lookback
window, in queue order. -/
lemma splitWords_included (s e : ℚ) (l : List Word) :
    (splitWords s e l).1 = l.filter (inLookbackWindow s e) := by
  induction l with
  | nil => rfl
  | cons w ws ih =>
    by_cases b1 : inLookbackWindow s e w
    · simp [splitWords, b1, ih, List.filter_cons]
    · by_cases b2 : isAfterEnd e w
      · simp [splitWords, b1, b2, ih, List.filter_cons]
      · simp [splitWords, b1, b2, ih, List.filter_cons]

/-- The retained group is exactly the pending words at or after the
interval end, in queue order. -/
lemma splitWords_retained (s e : ℚ) (l : List Word) :
    (splitWords s e l).2.1 = l.filter (isAfterEnd e) := by
  induction l with
  | nil => rfl
  | cons w ws ih =>
    by_cases b1 : inLookbackWindow s e w
    · have b2 : isAfterEnd e w = false := by
        have h1 := of_decide_eq_true b1
        unfold isAfterEnd
        exact decide_eq_false (not_le.mpr h1.2)
      simp [splitWords, b1, b2, ih, List.filter_cons]
    · by_cases b2 : isAfterEnd e w
      · simp [splitWords, b1, b2, ih, List.filter_cons]
      · simp [splitWords, b1, b2, ih, List.filter_cons]

/-- For a well-formed interval (`s ≤ e`) the discarded group is exactly
the pending words strictly before the lookback bound. -/
lemma splitWords_discarded (s e : ℚ) (l : List Word) (hse : s ≤ e) :
    (splitWords s e l).2.2 =
      l.filter (fun w => decide (w.timestamp < s - LOOKBACK_BUFFER)) := by
  induction l with
  | nil => rfl
  | cons w ws ih =>
    by_cases b1 : inLookbackWindow s e w
    · have h1 := of_decide_eq_true b1
      have b3 : decide (w.timestamp < s - LOOKBACK_BUFFER) = false :=
        decide_eq_false (not_lt.mpr h1.1)
      simp [splitWords, b1, b3, ih, List.filter_cons]
    · by_cases b2 : isAfterEnd e w
      · have h2 := of_decide_eq_true b2
        have b3 : decide (w.timestamp < s - LOOKBACK_BUFFER) = false := by
          refine decide_eq_false (fun hlt => ?_)
          have h5 : (0 : ℚ) < LOOKBACK_BUFFER := by norm_num [LOOKBACK_BUFFER]
          have : e < s - LOOKBACK_BUFFER := lt_of_le_of_lt h2 hlt
          linarith
        simp [splitWords, b1, b2, b3, ih, List.filter_cons]
      · have h1 : ¬ (s - LOOKBACK_BUFFER ≤ w.timestamp ∧ w.timestamp < e) :=
          of_decide_eq_false (Bool.of_not_eq_true b1)
        have h2 : ¬ e ≤ w.timestamp :=
          of_decide_eq_false (Bool.of_not_eq_true b2)
        have b3 : decide (w.timestamp < s - LOOKBACK_BUFFER) = true := by
          refine decide_eq_true ?_
          by_contra hge
          push_neg at hge
          exact h1 ⟨hge, lt_of_not_le h2⟩
        simp [splitWords, b1, b2, b3, ih, List.filter_cons]

/-- Every pending word lands in exactly one of the three groups: the
occurrence counts add up. -/
lemma splitWords_count (s e : ℚ) (l : List Word) (w : Word) :
    l.count w =
      (splitWords s e l).1.count w + (splitWords s e l).2.1.count w +
        (splitWords s e l).2.2.count w := by
  induction l with
  | nil => rfl
  | cons a ws ih =>
    by_cases b1 : inLookbackWindow s e a
    · cases haw : (a == w) <;>
        simp [splitWords, b1, haw, List.count_cons] <;> omega
    · by_cases b2 : isAfterEnd e a
      · cases haw : (a == w) <;>
          simp [splitWords, b1, b2, haw, List.count_cons] <;> omega
      · cases haw : (a == w) <;>
          simp [splitWords, b1, b2, haw, List.count_cons] <;> omega

/-- Pending words used for the speech-mapper witnesses and
counterexample: two out-of-order words around an interval boundary. -/
def exPendingTwo : SpeechMapper :=
  { silence_threshold := 1/2
    pending_words := [⟨"b", 21/2, 1⟩, ⟨"a", 51/5, 1⟩]
    last_word_time := none
    total_words_mapped := 0
    total_silence_detected := 0 }

/-- Pending words covering all three partition groups for the interval
`[10, 11)`: in-lookback, in-interval, stale, and future words. -/
def exPendingFour : SpeechMapper :=
  { silence_threshold := 1/2
    pending_words :=
      [⟨"w1", 7, 1⟩, ⟨"w2", 21/2, 1⟩, ⟨"w3", 4, 1⟩, ⟨"w4", 12, 1⟩]
    last_word_time := none
    total_words_mapped := 0
    total_silence_detected := 0 }

/-- C4: `map_to_interval` with LOOKBACK = 5.0 includes exactly the
pending words with `interval_start - 5.0 ≤ t < interval_end`, retains
exactly those with `t ≥ interval_end`, and discards exactly those with
`t < interval_start - 5.0`. -/
theorem lookback_partition (m : SpeechMapper) (istart iend : ℚ)
    (h : istart ≤ iend) :
    (mapToInterval m istart iend).words =
      m.pending_words.filter (fun w =>
        decide (istart - 5 ≤ w.timestamp ∧ w.timestamp < iend)) ∧
    (mapToInterval m istart iend).mapper.pending_words =
      m.pending_words.filter (fun w => decide (iend ≤ w.timestamp)) ∧
    discardedWords m istart iend =
      m.pending_words.filter (fun w =>
        decide (w.timestamp < istart - 5)) := by
  refine ⟨?_, ?_, ?_⟩
  · exact splitWords_included istart iend m.pending_words
  · exact splitWords_retained istart iend m.pending_words
  · exact splitWords_discarded istart iend m.pending_words h

/-- Witness for C4 at the interval `[10, 11)` of the spec's example:
the lookback word at 7.0 and the in-interval word at 10.5 are included,
the stale word at 4.0 is discarded, the future word at 12.0 is kept. -/
theorem lookback_partition_witness :
    (10 : ℚ) ≤ 11 ∧
    ((mapToInterval exPendingFour 10 11).words =
      exPendingFour.pending_words.filter (fun w =>
        decide ((10 : ℚ) - 5 ≤ w.timestamp ∧ w.timestamp < 11)) ∧
     (mapToInterval exPendingFour 10 11).mapper.pending_words =
      exPendingFour.pending_words.filter (fun w =>
        decide ((11 : ℚ) ≤ w.timestamp)) ∧
     discardedWords exPendingFour 10 11 =
      exPendingFour.pending_words.filter (fun w =>
        decide (w.timestamp < (10 : ℚ) - 5))) :=
  ⟨by norm_num, lookback_partition exPendingFour 10 11 (by norm_num)⟩

/-- C10: after `map_to_interval`, every still-pending word is at or past
the interval end, and every previously pending word is accounted for
exactly once across included / retained / discarded. -/
theorem pending_partition_invariant (m : SpeechMapper) (istart iend : ℚ) :
    (∀ w ∈ (mapToInterval m istart iend).mapper.pending_words,
        iend ≤ w.timestamp) ∧
    (∀ w : Word,
      m.pending_words.count w =
        (mapToInterval m istart iend).words.count w +
          (mapToInterval m istart iend).mapper.pending_words.count w +
          (discardedWords m istart iend).count w) := by
  constructor
  · intro w hw
    have hw' : w ∈ m.pending_words.filter (isAfterEnd iend) := by
      have hret := splitWords_retained istart iend m.pending_words
      rw [show (mapToInterval m istart iend).mapper.pending_words =
        (splitWords istart iend m.pending_words).2.1 from rfl, hret] at hw
      exact hw
    have hb : isAfterEnd iend w = true := List.of_mem_filter hw'
    exact of_decide_eq_true hb
  · intro w
    exact splitWords_count istart iend m.pending_words w

/-- Witness for C10 at the interval `[10, 11)`: the future word stays
pending past the interval end, and the lookback word is counted exactly
once across the three groups. -/
theorem pending_partition_invariant_witness :
    (⟨"w4", 12, 1⟩ : Word) ∈
      (mapToInterval exPendingFour 10 11).mapper.pending_words ∧
    (11 : ℚ) ≤ (12 : ℚ) ∧
    exPendingFour.pending_words.count ⟨"w1", 7, 1⟩ =
      (mapToInterval exPendingFour 10 11).words.count ⟨"w1", 7, 1⟩ +
        (mapToInterval exPendingFour 10 11).mapper.pending_words.count
          ⟨"w1", 7, 1⟩ +
        (discardedWords exPendingFour 10 11).count ⟨"w1", 7, 1⟩ := by
  have h := pending_partition_invariant exPendingFour 10 11
  have hmem : (⟨"w4", 12, 1⟩ : Word) ∈
      (mapToInterval exPendingFour 10 11).mapper.pending_words := by
    norm_num [mapToInterval, exPendingFour, splitWords, inLookbackWindow,
      isAfterEnd, LOOKBACK_BUFFER]
  exact ⟨hmem, h.1 _ hmem, h.2 _⟩

/-- Counterexample to C8: with pending order `"b"@10.5, "a"@10.2` and
interval `[10, 11)`, the emitted text is `"b a"` (queue order), not the
timestamp-sorted `"a b"` the claim requires. -/
theorem full_text_not_sorted_cex :
    (mapToInterval exPendingTwo 10 11).full_text = "b a" ∧
    String.intercalate " "
      ((sortAscBy (·.timestamp)
        (mapToInterval exPendingTwo 10 11).words).map (·.word)) = "a b" ∧
    (mapToInterval exPendingTwo 10 11).full_text ≠
      String.intercalate " "
        ((sortAscBy (·.timestamp)
          (mapToInterval exPendingTwo 10 11).words).map (·.word)) := by
  have h1 : (mapToInterval exPendingTwo 10 11).full_text = "b a" := by
    norm_num [mapToInterval, exPendingTwo, splitWords, inLookbackWindow,
      isAfterEnd, LOOKBACK_BUFFER]
    rfl
  have h2 : String.intercalate " "
      ((sortAscBy (·.timestamp)
        (mapToInterval exPendingTwo 10 11).words).map (·.word)) = "a b" := by
    norm_num [mapToInterval, exPendingTwo, splitWords, inLookbackWindow,
      isAfterEnd, LOOKBACK_BUFFER, sortAscBy, insertAscBy]
    rfl
  exact ⟨h1, h2, by rw [h1, h2]; decide⟩

/-- C8 (amended): the joined text is the space-join of the included
words in pending-queue (arrival) order — the lookback filter preserves
queue order and no timestamp sort is applied to the text. -/
theorem full_text_queue_order (m : SpeechMapper) (istart iend : ℚ) :
    (mapToInterval m istart iend).full_text =
      String.intercalate " "
        ((m.pending_words.filter (fun w =>
          decide (istart - 5 ≤ w.timestamp ∧ w.timestamp < iend))).map
            (·.word)) := by
  show String.intercalate " "
      ((splitWords istart iend m.pending_words).1.map (·.word)) = _
  rw [splitWords_included istart iend m.pending_words]
  rfl

/-! ## Lemmas about the interval aggregator -/

/-- An elapsed window pins down the window start and the elapsed bound. -/
lemma intervalComplete_spec (s : AggState) (now : ℚ)
    (hc : intervalComplete s now = true) :
    ∃ st, s.current_interval_start = some st ∧
      s.interval_duration ≤ now - st := by
  unfold intervalComplete at hc
  cases h : s.current_interval_start with
  | none => rw [h] at hc; simp at hc
  | some st => rw [h] at hc; exact ⟨st, rfl, of_decide_eq_true hc⟩

/-- When `get_interval` emits an interval, its bounds come from the
window start and the close time, and the accumulators are reset. -/
lemma getInterval_proj (s : AggState) (now : ℚ) (d : IntervalData)
    (s' : AggState) (hg : getInterval s now = (some d, s')) :
    d.interval_start = s.current_interval_start.getD 0 ∧
    d.interval_end = now ∧
    s'.current_interval_start = none ∧
    s'.current_interval_frames = [] := by
  by_cases h : s.current_interval_frames.isEmpty
  · simp [getInterval, h] at hg
  · rw [getInterval, if_neg h] at hg
    obtain ⟨hd, hs⟩ := Prod.mk.injEq .. ▸ hg
    obtain rfl := Option.some.inj hd
    subst hs
    exact ⟨rfl, rfl, rfl, rfl⟩

/-- C9: closing a window with zero accumulated frames returns no
interval and leaves the aggregator state exactly unchanged. -/
theorem empty_window_noop (s : AggState) (now : ℚ)
    (h : s.current_interval_frames = []) :
    getInterval s now = (none, s) := by
  simp [getInterval, h]

/-- Witness for C9: a freshly initialised aggregator closed at time 5. -/
theorem empty_window_noop_witness :
    (initAggState 1).current_interval_frames = [] ∧
    getInterval (initAggState 1) 5 = (none, initAggState 1) :=
  ⟨rfl, empty_window_noop (initAggState 1) 5 rfl⟩

/-- A frame payload with no emotion scores and no state (face present),
used to exercise the window-boundary logic. -/
def exFrameEmpty : EmotionData := ⟨[], none, 0⟩

/-- One frame at t = 0 in a fresh 1-second aggregator. -/
def exRunE : AggState := addFrame (initAggState 1) exFrameEmpty 0 true

/-- Counterexample to C3: with a frame at t = 0 and close ticks at 1.5
and 3.0 (a fixed 1.5 s tick rate, each close occurring only once the
window has elapsed), the first emitted interval is `[0, 1.5]` — its
length 1.5 ≠ 1.0 — and the second starts at t = 2 (the next frame), so
`interval[0].interval_end = 1.5 ≠ 2.0 = interval[1].interval_start`. -/
theorem window_contiguity_cex :
    intervalComplete exRunE (3/2) = true ∧
    (getInterval exRunE (3/2)).1.map
      (fun d => (d.interval_start, d.interval_end)) = some (0, 3/2) ∧
    intervalComplete
      (addFrame (getInterval exRunE (3/2)).2 exFrameEmpty 2 true) 3 = true ∧
    (getInterval
      (addFrame (getInterval exRunE (3/2)).2 exFrameEmpty 2 true) 3).1.map
        (fun d => d.interval_start) = some 2 ∧
    ((3:ℚ)/2 - 0 ≠ 1 ∧ (3:ℚ)/2 ≠ 2) := by
  refine ⟨?_, ?_, ?_, ?_, by norm_num, by norm_num⟩
  · norm_num [intervalComplete, exRunE, addFrame, initAggState]
  · norm_num [getInterval, exRunE, addFrame, initAggState]
  · norm_num [intervalComplete, getInterval, exRunE, addFrame, initAggState]
  · norm_num [getInterval, exRunE, addFrame, initAggState]

/-- C3 (amended): when `close(now)` is called only once the window has
elapsed, the emitted interval satisfies
`interval_end - interval_start ≥ window_duration` (not `=`), its end is
the close time itself, and the next emitted interval starts at the
timestamp of the first frame added after the close — hence
`interval[i].interval_end ≤ interval[i+1].interval_start` whenever that
frame does not predate the close, with equality not guaranteed. -/
theorem window_bounds_amended (s : AggState) (now : ℚ)
    (hc : intervalComplete s now = true) :
    ∀ d s', getInterval s now = (some d, s') →
      s.interval_duration ≤ d.interval_end - d.interval_start ∧
      d.interval_end = now ∧
      (∀ (ed : EmotionData) (t : ℚ) (det : Bool) (now' : ℚ)
          (d2 : IntervalData) (s'' : AggState),
        getInterval (addFrame s' ed t det) now' = (some d2, s'') →
        d2.interval_start = t ∧
        (now ≤ t → d.interval_end ≤ d2.interval_start)) := by
  intro d s' hg
  obtain ⟨st, hst, hdur⟩ := intervalComplete_spec s now hc
  obtain ⟨hds, hde, hs'start, _⟩ := getInterval_proj s now d s' hg
  have hds' : d.interval_start = st := by rw [hds, hst]; rfl
  refine ⟨?_, hde, ?_⟩
  · rw [hde, hds']; linarith
  · intro ed t det now' d2 s'' hg2
    obtain ⟨hd2s, _, _, _⟩ := getInterval_proj _ now' d2 s'' hg2
    have hstart2 : (addFrame s' ed t det).current_interval_start = some t := by
      simp [addFrame, hs'start]
    have ht : d2.interval_start = t := by rw [hd2s, hstart2]; rfl
    exact ⟨ht, fun hnt => by rw [hde, ht]; exact hnt⟩

/-- The interval emitted by closing `exRunE` at 1.5. -/
def exIntervalE : IntervalData :=
  ⟨1/2, 0, 3/2, [], "neutral", 1, 1, ⟨true, false, false, false⟩, [], ""⟩

/-- The aggregator state after that close. -/
def exAggE : AggState := ⟨1, none, [], [], some [], some "neutral", 1⟩

/-- The interval emitted by the second close (frame at 2, close at 3). -/
def exIntervalE2 : IntervalData :=
  ⟨5/2, 2, 3, [], "neutral", 1, 1, ⟨true, false, false, false⟩, [], ""⟩

/-- The aggregator state after the second close. -/
def exAggE2 : AggState := ⟨1, none, [], [], some [], some "neutral", 2⟩

/-- Witness for the amended C3 on the concrete two-window run. -/
theorem window_bounds_amended_witness :
    (1 : ℚ) ≤ exIntervalE.interval_end - exIntervalE.interval_start ∧
    exIntervalE.interval_end = 3/2 ∧
    exIntervalE2.interval_start = 2 ∧
    exIntervalE.interval_end ≤ exIntervalE2.interval_start := by
  have hc : intervalComplete exRunE (3/2) = true := by
    norm_num [intervalComplete, exRunE, addFrame, initAggState]
  have hg : getInterval exRunE (3/2) = (some exIntervalE, exAggE) := by
    norm_num [getInterval, exRunE, addFrame, initAggState, exFrameEmpty,
      emotionAverages, collectSums, topEmotionsWithTrends, sortDescBySnd,
      dominantState, countsOf, generateFlags, checkHighConfidence,
      checkEmotionShift, checkStateTransition, exIntervalE, exAggE]
  have hg2 : getInterval (addFrame exAggE exFrameEmpty 2 true) 3 =
      (some exIntervalE2, exAggE2) := by
    norm_num [getInterval, addFrame, exAggE, exFrameEmpty,
      emotionAverages, collectSums, topEmotionsWithTrends, sortDescBySnd,
      dominantState, countsOf, generateFlags, checkHighConfidence,
      checkEmotionShift, checkStateTransition, exIntervalE2, exAggE2]
  obtain ⟨h1, h2, h3⟩ :=
    window_bounds_amended exRunE (3/2) hc exIntervalE exAggE hg
  obtain ⟨h4, h5⟩ := h3 exFrameEmpty 2 true 3 exIntervalE2 exAggE2 hg2
  have hdur : exRunE.interval_duration = 1 := rfl
  exact ⟨hdur ▸ h1, h2, h4, h5 (by norm_num)⟩

/-- A frame payload scoring Interest at 0.40 in state "curious". -/
def exFrameA : EmotionData := ⟨[("Interest", 2/5)], some "curious", 1⟩

/-- A frame payload scoring Interest at 0.50 in state "curious". -/
def exFrameB : EmotionData := ⟨[("Interest", 1/2)], some "curious", 1⟩

/-- Two consecutive windows: Interest averages 0.40 then 0.50 (delta
0.10 > 0.05, so the second window's trend for Interest is
"increasing"); the run returns the second window's close result. -/
def exAggRun : Option IntervalData × AggState :=
  let s1 := addFrame (initAggState 1) exFrameA 0 true
  let r1 := getInterval s1 1
  let s3 := addFrame r1.2 exFrameB 1 true
  getInterval s3 2

/-- C1 (code bug): `_check_emotion_shift` returns `False` on every state
— so even when a top category's trend is `"increasing"`, as in the
concrete two-window run where Interest moves 0.40 → 0.50, the emitted
`emotion_shift` flag is `false`, contradicting the claimed trend-based
semantics. -/
theorem emotion_shift_flag_noop :
    (∀ s : AggState, checkEmotionShift s = false) ∧
    exAggRun.1.map (fun d => d.top_emotions.map (fun e => e.trend)) =
      some ["increasing"] ∧
    exAggRun.1.map (fun d => d.flags.emotion_shift) = some false := by
  refine ⟨?_, ?_⟩
  · intro s
    unfold checkEmotionShift
    cases s.previous_top_emotions with
    | none => rfl
    | some prevs => simp
  · have hr : round3 ((2:ℚ)/5) = 2/5 := by
      norm_num [round3, Int.fract, round_eq]
    set_option maxRecDepth 4000 in
    norm_num [exAggRun, getInterval, addFrame, initAggState, exFrameA,
      exFrameB, emotionAverages, collectSums, bump, topEmotionsWithTrends,
      sortDescBySnd, insertDescBy, calculateTrend, dominantState, countsOf,
      bumpCount, maxBySnd, generateFlags, checkHighConfidence,
      checkEmotionShift, checkStateTransition, List.find?, hr]

/-! ## Time-series buffer claims -/

/-- Counterexample to C6: the buffer's default capacity is 5, not 4
(`TimeSeriesBuffer.__init__` declares `window_size: int = 5`; the
session layer passes 4 explicitly). -/
theorem default_capacity_cex :
    (initTSBuffer).window_size = 5 ∧ (initTSBuffer).window_size ≠ 4 :=
  ⟨rfl, by decide⟩

/-- C6 (amended): the default capacity is 5 (capacity 4 is what the
session layer configures), and appends behave as a FIFO: below capacity
the interval is appended, at capacity exactly the oldest interval is
evicted. -/
theorem rolling_buffer_fifo (b : TSBuffer) (d : IntervalData) (now : ℚ) :
    (initTSBuffer).window_size = 5 ∧
    (b.intervals.length < b.window_size →
      (addInterval b d now).2.intervals = b.intervals ++ [d]) ∧
    (0 < b.window_size → b.intervals.length = b.window_size →
      (addInterval b d now).2.intervals = b.intervals.tail ++ [d]) := by
  have hg : (b.intervals ++ [d]).length = b.intervals.length + 1 := by
    simp
  refine ⟨rfl, ?_, ?_⟩
  · intro h
    have hle : (b.intervals ++ [d]).length ≤ b.window_size := by omega
    simp only [addInterval, appendEvict]
    rw [if_pos hle]
  · intro hpos hlen
    have hgt : ¬ (b.intervals ++ [d]).length ≤ b.window_size := by omega
    have hdrop : (b.intervals ++ [d]).length - b.window_size = 1 := by
      omega
    simp only [addInterval, appendEvict]
    rw [if_neg hgt, hdrop]
    cases hb : b.intervals with
    | nil => rw [hb] at hlen; simp at hlen; omega
    | cons a tl => simp

/-- Witness for the amended C6: a capacity-4 buffer below capacity
appends; at capacity it evicts exactly the oldest entry. -/
theorem rolling_buffer_fifo_witness :
    (initTSBuffer).window_size = 5 ∧
    (addInterval ⟨4, 4, [exIntervalE], none, none, 1, 0⟩ exIntervalE2 3).2.intervals
      = [exIntervalE] ++ [exIntervalE2] ∧
    (addInterval ⟨4, 4, [exIntervalE, exIntervalE2, exIntervalE, exIntervalE2],
        none, none, 4, 0⟩ exIntervalE 5).2.intervals
      = [exIntervalE2, exIntervalE, exIntervalE2] ++ [exIntervalE] := by
  obtain ⟨h0, h1, _⟩ :=
    rolling_buffer_fifo ⟨4, 4, [exIntervalE], none, none, 1, 0⟩ exIntervalE2 3
  obtain ⟨_, _, h2⟩ :=
    rolling_buffer_fifo
      ⟨4, 4, [exIntervalE, exIntervalE2, exIntervalE, exIntervalE2],
        none, none, 4, 0⟩ exIntervalE 5
  exact ⟨h0, h1 (by decide), h2 (by decide) (by decide)⟩

/-- C2: on a capacity-4 buffer, `add_interval` returns false while the
buffer holds fewer than 4 intervals; the call that first fills the
buffer with no prior trigger returns true; and a further call at
capacity, within `update_interval` of the last trigger and with no
shift/transition flag on the two most recent intervals, returns false. -/
theorem trigger_policy (b : TSBuffer) (d : IntervalData) (now : ℚ)
    (hcap : b.window_size = 4) :
    ((addInterval b d now).2.intervals.length < 4 →
      (addInterval b d now).1 = false) ∧
    (b.intervals.length = 3 → b.last_llm_update = none →
      (addInterval b d now).1 = true) ∧
    (∀ t : ℚ, b.intervals.length = 4 → b.last_llm_update = some t →
      now - t < b.update_interval →
      (∀ p ∈ lastTwo (appendEvict b.intervals d 4),
        p.flags.emotion_shift = false ∧ p.flags.state_transition = false) →
      (addInterval b d now).1 = false) := by
  have hfst : (addInterval b d now).1 =
      (shouldTriggerLLMUpdate
        { b with
          session_start := some (b.session_start.getD now)
          intervals := appendEvict b.intervals d b.window_size
          total_intervals := b.total_intervals + 1 } now).1 := rfl
  refine ⟨?_, ?_, ?_⟩
  · intro h
    have h' : (appendEvict b.intervals d b.window_size).length <
        b.window_size := by
      have : (addInterval b d now).2.intervals =
          appendEvict b.intervals d b.window_size := rfl
      rw [this] at h
      omega
    rw [hfst]
    simp only [shouldTriggerLLMUpdate]
    rw [if_pos h']
  · intro hlen hnone
    have hlen' : (appendEvict b.intervals d b.window_size).length = 4 := by
      have hg : (b.intervals ++ [d]).length = 4 := by simp [hlen]
      simp only [appendEvict]
      rw [if_pos (by omega)]
      exact hg
    rw [hfst]
    simp only [shouldTriggerLLMUpdate]
    rw [if_neg (show ¬ ((appendEvict b.intervals d b.window_size).length <
      b.window_size) by omega), hnone]
  · intro t hlen hsome hlt hflags
    have hlen4 : (appendEvict b.intervals d b.window_size).length = 4 := by
      have hg : (b.intervals ++ [d]).length = 5 := by simp [hlen]
      simp only [appendEvict]
      rw [if_neg (by omega), List.length_drop, hg]
      omega
    have hshiftB : hasSignificantShift
        { b with
          session_start := some (b.session_start.getD now)
          intervals := appendEvict b.intervals d b.window_size
          total_intervals := b.total_intervals + 1 } = false := by
      simp only [hasSignificantShift]
      rw [if_neg (show ¬ ((appendEvict b.intervals d b.window_size).length <
        2) by omega)]
      rw [List.any_eq_false]
      intro p hp
      have hp' : p ∈ lastTwo (appendEvict b.intervals d 4) := by
        rw [← hcap]
        exact hp
      simp [(hflags p hp').1]
    have htransB : hasStateTransition
        { b with
          session_start := some (b.session_start.getD now)
          intervals := appendEvict b.intervals d b.window_size
          total_intervals := b.total_intervals + 1 } = false := by
      simp only [hasStateTransition]
      rw [if_neg (show ¬ ((appendEvict b.intervals d b.window_size).length <
        2) by omega)]
      rw [List.any_eq_false]
      intro p hp
      have hp' : p ∈ lastTwo (appendEvict b.intervals d 4) := by
        rw [← hcap]
        exact hp
      simp [(hflags p hp').2]
    rw [hfst]
    simp only [shouldTriggerLLMUpdate, hshiftB, htransB]
    rw [if_neg (show ¬ ((appendEvict b.intervals d b.window_size).length <
      b.window_size) by omega), hsome]
    simp [not_le.mpr hlt]

/-- An all-flags-false interval used by the trigger-policy witness. -/
def exIvlQuiet : IntervalData :=
  ⟨0, 0, 1, [], "neutral", 0, 0, ⟨false, false, false, false⟩, [], ""⟩

/-- Witness for C2: a 2-element capacity-4 buffer stays silent, the
fill-up call triggers, and the in-cadence quiet call does not. -/
theorem trigger_policy_witness :
    (addInterval ⟨4, 4, [exIvlQuiet, exIvlQuiet], none, none, 2, 0⟩
      exIvlQuiet 3).1 = false ∧
    (addInterval ⟨4, 4, [exIvlQuiet, exIvlQuiet, exIvlQuiet], none, none,
      3, 0⟩ exIvlQuiet 4).1 = true ∧
    (addInterval ⟨4, 4, [exIvlQuiet, exIvlQuiet, exIvlQuiet, exIvlQuiet],
      some 4, some 0, 4, 1⟩ exIvlQuiet 5).1 = false := by
  obtain ⟨p1, _, _⟩ :=
    trigger_policy ⟨4, 4, [exIvlQuiet, exIvlQuiet], none, none, 2, 0⟩
      exIvlQuiet 3 rfl
  obtain ⟨_, q2, _⟩ :=
    trigger_policy ⟨4, 4, [exIvlQuiet, exIvlQuiet, exIvlQuiet], none,
      none, 3, 0⟩ exIvlQuiet 4 rfl
  obtain ⟨_, _, r3⟩ :=
    trigger_policy ⟨4, 4, [exIvlQuiet, exIvlQuiet, exIvlQuiet,
      exIvlQuiet], some 4, some 0, 4, 1⟩ exIvlQuiet 5 rfl
  refine ⟨p1 ?_, q2 rfl rfl, r3 4 rfl rfl (by norm_num) ?_⟩
  · simp [addInterval, appendEvict]
  · intro p hp
    have : p = exIvlQuiet := by
      simpa [lastTwo, appendEvict] using hp
    rw [this]
    exact ⟨rfl, rfl⟩

/-! ## Category-mapper claims -/

/-- The first-maximum fold always lands on the seed or a list element. -/
lemma foldl_max_mem {β : Type} [LT β] [DecidableRel (α := β) (· < ·)]
    (xs : List (String × β)) (cur : String × β) :
    xs.foldl (fun cur y => if cur.2 < y.2 then y else cur) cur ∈
      cur :: xs := by
  induction xs generalizing cur with
  | nil => simp
  | cons y ys ih =>
    simp only [List.foldl_cons]
    rcases List.mem_cons.mp (ih (if cur.2 < y.2 then y else cur)) with
      h1 | h1
    · rw [h1]
      by_cases hc : cur.2 < y.2
      · simp [hc]
      · simp [hc]
    · exact List.mem_cons_of_mem _ (List.mem_cons_of_mem _ h1)

/-- A value returned by `maxBySnd` is an element of the list. -/
lemma maxBySnd_mem {β : Type} [LT β] [DecidableRel (α := β) (· < ·)]
    (l : List (String × β)) (p : String × β) (h : maxBySnd l = some p) :
    p ∈ l := by
  cases l with
  | nil => simp [maxBySnd] at h
  | cons x xs =>
    rw [maxBySnd] at h
    exact (Option.some.inj h) ▸ foldl_max_mem xs x

/-- `maxBySnd` yields a value on any non-empty list. -/
lemma maxBySnd_ne_nil {β : Type} [LT β] [DecidableRel (α := β) (· < ·)]
    (l : List (String × β)) (hne : l ≠ []) :
    ∃ p, maxBySnd l = some p := by
  cases l with
  | nil => exact absurd rfl hne
  | cons x xs => exact ⟨_, rfl⟩

/-- The spec's example input `{Interest: 0.6, Confusion: 0.9}`. -/
def exInterestConfusion : List (String × ℚ) :=
  [("Interest", 3/5), ("Confusion", 9/10)]

/-- On the example input, "curious" wins (0.6·0.9 = 0.54 beats
Confusion-driven "thinking" at 0.9·0.4 = 0.36). -/
lemma mapToInvestorState_example :
    mapToInvestorState exInterestConfusion = "curious" := by
  have hscores : investorStateScores exInterestConfusion =
      [("closed-off", 0), ("baseline", 0), ("curious", 27/50),
       ("amused", 0), ("enthusiastic", 0), ("thinking", 9/25)] := by
    simp [investorStateScores, scoreOf, exInterestConfusion, List.lookup]
    norm_num
  rw [mapToInvestorState, hscores]
  norm_num [maxBySnd]

/-- On the example input, the representative for "curious" is Interest
(the only curious-subset key present), not the higher-scoring
Confusion. -/
lemma getPrimary_example :
    getPrimaryEmotionForState exInterestConfusion "curious" =
      some ("Interest", 3/5) := by
  have hrel : stateEmotions "curious" =
      ["Interest", "Curiosity", "Concentration", "Realization",
       "Surprise (positive)"] := by decide
  rw [getPrimaryEmotionForState, hrel]
  simp [exInterestConfusion, maxBySnd, List.filter]

/-- C5: whenever the input contains at least one key of the winning
category's subset, the representative emotion belongs to that subset;
and on `{Interest: 0.6, Confusion: 0.9}` the category is "curious" with
representative "Interest" despite Confusion's higher raw score. -/
theorem primary_emotion_in_state (emotions : List (String × ℚ))
    (n : String) (q : ℚ) (hmem : (n, q) ∈ emotions)
    (hk : n ∈ stateEmotions (mapToInvestorState emotions)) :
    (∃ p, getPrimaryEmotionForState emotions (mapToInvestorState emotions)
        = some p ∧ p.1 ∈ stateEmotions (mapToInvestorState emotions)) ∧
    mapToInvestorState exInterestConfusion = "curious" ∧
    getPrimaryEmotionForState exInterestConfusion "curious" =
      some ("Interest", 3/5) := by
  refine ⟨?_, mapToInvestorState_example, getPrimary_example⟩
  have hrelne :
      (stateEmotions (mapToInvestorState emotions)).isEmpty = false := by
    cases hr : stateEmotions (mapToInvestorState emotions) with
    | nil => rw [hr] at hk; simp at hk
    | cons a l => rfl
  have hmf : (n, q) ∈ emotions.filter
      (fun p => (stateEmotions (mapToInvestorState emotions)).contains
        p.1) := by
    refine List.mem_filter.mpr ⟨hmem, ?_⟩
    simpa using hk
  have hfne : emotions.filter
      (fun p => (stateEmotions (mapToInvestorState emotions)).contains
        p.1) ≠ [] := by
    intro h0
    rw [h0] at hmf
    simp at hmf
  obtain ⟨p, hp⟩ := maxBySnd_ne_nil _ hfne
  have hpmem := maxBySnd_mem _ p hp
  have hpfst : p.1 ∈ stateEmotions (mapToInvestorState emotions) := by
    simpa using (List.mem_filter.mp hpmem).2
  have hfe : (emotions.filter
      (fun p => (stateEmotions (mapToInvestorState emotions)).contains
        p.1)).isEmpty = false := by
    cases hf0 : emotions.filter
        (fun p => (stateEmotions (mapToInvestorState emotions)).contains
          p.1) with
    | nil => exact absurd hf0 hfne
    | cons a l => rfl
  refine ⟨p, ?_, hpfst⟩
  simp only [getPrimaryEmotionForState, hrelne, Bool.false_eq_true,
    if_false, hfe]
  exact hp

/-- Witness for C5 at the spec's example input. -/
theorem primary_emotion_in_state_witness :
    ("Interest", (3 : ℚ)/5) ∈ exInterestConfusion ∧
    "Interest" ∈ stateEmotions (mapToInvestorState exInterestConfusion) ∧
    (∃ p, getPrimaryEmotionForState exInterestConfusion
        (mapToInvestorState exInterestConfusion) = some p ∧
      p.1 ∈ stateEmotions (mapToInvestorState exInterestConfusion)) := by
  have hmem : ("Interest", (3 : ℚ)/5) ∈ exInterestConfusion := by
    simp [exInterestConfusion]
  have hk : "Interest" ∈
      stateEmotions (mapToInvestorState exInterestConfusion) := by
    rw [mapToInvestorState_example]
    decide
  exact ⟨hmem, hk,
    (primary_emotion_in_state exInterestConfusion "Interest" (3/5) hmem
      hk).1⟩

/-- Counterexample to C7: on the empty score map the dominant category
defaults to "baseline", but the representative-emotion selection has no
value — Python's `max` over the empty filtered map raises `ValueError`
(modelled as `none`) instead of returning a neutral default. -/
theorem empty_input_cex :
    mapToInvestorState [] = "baseline" ∧
    getPrimaryEmotionForState [] "baseline" = none := by
  constructor
  · have hscores : investorStateScores [] =
        [("closed-off", 0), ("baseline", 0), ("curious", 0),
         ("amused", 0), ("enthusiastic", 0), ("thinking", 0)] := by
      simp [investorStateScores, scoreOf, List.lookup]
    rw [mapToInvestorState, hscores]
    norm_num [maxBySnd]
  · have hrel : stateEmotions "baseline" =
        ["Calmness", "Aesthetic Appreciation", "Contemplation"] := by
      decide
    rw [getPrimaryEmotionForState, hrel]
    simp [maxBySnd, List.filter]

/-- C7 (amended): classification of the empty score map yields the
baseline default for the dominant category, but the representative
emotion has no value for any state (the `max` over an empty sequence
raises, modelled `none`) — the caller's exception handler, not a
neutral default, absorbs the failure. -/
theorem empty_input_behavior :
    mapToInvestorState [] = "baseline" ∧
    (∀ st : String, getPrimaryEmotionForState [] st = none) := by
  constructor
  · have hscores : investorStateScores [] =
        [("closed-off", 0), ("baseline", 0), ("curious", 0),
         ("amused", 0), ("enthusiastic", 0), ("thinking", 0)] := by
      simp [investorStateScores, scoreOf, List.lookup]
    rw [mapToInvestorState, hscores]
    norm_num [maxBySnd]
  · intro st
    rcases hr : (stateEmotions st).isEmpty with hfalse | htrue
    · simp [getPrimaryEmotionForState, hr, maxBySnd, List.filter]
    · simp [getPrimaryEmotionForState, hr, maxBySnd, List.filter]

end BeneAI
